import Mathlib

/-!
# Verification of the Cyrano chronometric (forensic time-capture) engine

Shallow embedding of the chronometric / value-billing core:

* `src/src/chronometric/utils.ts` (rounding helpers)
* `src/src/chronometric/module/value-billing-engine.ts` (billing policy, confidence)
* `src/src/chronometric/module/duplicate-detection.ts` (pairwise duplicate scoring)
* `src/src/chronometric/module/chronometric-module.ts` (aggregation, gap identification)
* `src/unnamed/part_004` (the tvb `ValueBillingEngine.analyze` sessionizer)

Modelling conventions:

* JavaScript numbers are modelled as `ℚ`; all quantities exercised by the
  engine are exact decimals, so `ℚ` captures their arithmetic exactly.
* ISO-8601 UTC timestamp strings are modelled as `ℤ` milliseconds since the
  epoch.  Fixed-width ISO-8601 UTC strings compare lexicographically exactly
  as their time values, so `localeCompare`-based ordering is the `ℤ` order,
  and `new Date(s).getTime()` is the identity in the model.
  `s.slice(0, 10)` (the UTC calendar date) is floor-division by 86400000.
* JavaScript truthiness: `undefined` and `0` (resp. the empty string) are
  falsy; `x || y`, `x ?? y` and `cond && x` are translated accordingly at
  each use site.
* `Math.round` rounds half toward +infinity: `⌊x + 1/2⌋`.
* Structure fields never read by any modelled code path are omitted.
-/

/-! ## Numeric JavaScript primitives -/

/-- JavaScript `m % i` for the operand signs reached by the modelled code
(`m > 0`, `i > 0`, where truncation and floor agree): `m - i * ⌊m / i⌋`. -/
def jsMod (m i : ℚ) : ℚ := m - i * ⌊m / i⌋

/-- JavaScript `Math.round`: rounds half toward positive infinity. -/
def jsRound (q : ℚ) : ℤ := ⌊q + 1/2⌋

/-- JavaScript `a || b` for an optional number `a`: `undefined` and `0` are
falsy and fall through to `b`. -/
def jsOrOpt (a : Option ℚ) (b : ℚ) : ℚ :=
  match a with
  | some x => if x = 0 then b else x
  | none => b

/-- JavaScript truthiness of an optional number (`undefined` and `0` falsy). -/
def truthyOpt (a : Option ℚ) : Bool :=
  match a with
  | some x => decide (x ≠ 0)
  | none => false

/-- JavaScript `a || b` for an optional string: `undefined` and `""` falsy. -/
def jsOrStr (a : Option String) (b : String) : String :=
  match a with
  | some s => if s = "" then b else s
  | none => b

/-- `roundToIncrement` from `src/src/chronometric/utils.ts` lines 54-74.
`if (increment <= 0) return minutes; if (minutes <= 0) return 0;`
then ceiling- or nearest-round to a multiple of `increment`. -/
def roundToIncrement (minutes increment : ℚ) (roundUp : Bool) : ℚ :=
  if increment ≤ 0 then minutes
  else if minutes ≤ 0 then 0
  else
    let remainder := jsMod minutes increment
    if remainder = 0 then minutes
    else if roundUp then minutes + (increment - remainder)
    else if increment / 2 ≤ remainder then minutes + (increment - remainder)
    else minutes - remainder

/-! ## Data model (`src/src/chronometric/types/core-types.ts`) -/

/-- `direct | circumstantial`, the `Evidence.type` union. -/
inductive EvidenceKind where
  | direct
  | circumstantial
deriving DecidableEq, Repr

/-- `Evidence` (only the `type` field is read by the modelled code paths). -/
structure Evidence where
  etype : EvidenceKind
deriving DecidableEq, Repr

/-- `MatterRef`: `{matterId?, clientName?, matterName?}`. -/
structure MatterRef where
  matterId : Option String
  clientName : Option String
  matterName : Option String
deriving DecidableEq, Repr

/-- `SourceEvent` (fields read by the modelled code paths; `timestamp` and
`endTimestamp` are UTC milliseconds modelling the ISO strings). -/
structure SourceEvent where
  id : String
  timestamp : ℤ
  endTimestamp : Option ℤ
  durationMinutes : Option ℚ
  matter : Option MatterRef
  evidence : Option (List Evidence)
deriving DecidableEq, Repr

/-- `basis: 'normative' | 'actual' | 'hybrid'`. -/
inductive EntryBasis where
  | normative
  | actual
  | hybrid
deriving DecidableEq, Repr

/-- `ProposedEntry` (fields read by the billing policy and the duplicate
detector; `date` is the `YYYY-MM-DD` string). -/
structure ProposedEntry where
  id : String
  matter : MatterRef
  date : String
  taskCode : String
  actualMinutes : Option ℚ
  normativeMinutes : ℚ
  recommendedMinutes : ℚ
  basis : EntryBasis
  description : String
  sourceEventIds : List String
deriving DecidableEq, Repr

/-- `mode: 'value' | 'actual' | 'blended'`. -/
inductive BillingMode where
  | value
  | actual
  | blended
deriving DecidableEq, Repr

/-- `BillingPolicy` (fields read by `applyBillingPolicy`).  The source field
`blendRatio` is named `blendWeight` here. -/
structure BillingPolicy where
  mode : BillingMode
  blendWeight : Option ℚ
  minIncrementMinutes : Option ℚ
  roundUp : Option Bool
  capMultiplier : Option ℚ
deriving DecidableEq, Repr

/-! ## Billing policy
(`ValueBillingEngine.applyBillingPolicy`,
`src/src/chronometric/module/value-billing-engine.ts` lines 374-420) -/

/-- The `switch (policy.mode)` of `applyBillingPolicy` (lines 382-401):
the recommended minutes before the cap and rounding steps.
`blended` reads `policy.blendRatio ?? 0.5` (nullish coalescing keeps `0`),
falls back `proposal.actualMinutes || proposal.normativeMinutes`
(so `0` and `undefined` both fall back), and applies `Math.round`. -/
def modeRecommended (p : ProposedEntry) (pol : BillingPolicy) : ℚ :=
  match pol.mode with
  | .actual => jsOrOpt p.actualMinutes p.normativeMinutes
  | .blended =>
      let w := pol.blendWeight.getD (1/2)
      let actual := jsOrOpt p.actualMinutes p.normativeMinutes
      (jsRound (p.normativeMinutes * w + actual * (1 - w)) : ℚ)
  | .value => p.normativeMinutes

/-- Lines 403-407 of `applyBillingPolicy`:
`if (policy.capMultiplier && proposal.actualMinutes)` (both truthy, so both
set and nonzero) then `min(recommendedMinutes, actualMinutes * capMultiplier)`.
This is the final pre-rounding recommended value. -/
def cappedRecommended (p : ProposedEntry) (pol : BillingPolicy) : ℚ :=
  let base := modeRecommended p pol
  if truthyOpt pol.capMultiplier && truthyOpt p.actualMinutes then
    min base (p.actualMinutes.getD 0 * pol.capMultiplier.getD 0)
  else base

/-- The `basis` value recorded by the `switch` of `applyBillingPolicy`. -/
def modeBasis (mode : BillingMode) : EntryBasis :=
  match mode with
  | .actual => .actual
  | .blended => .hybrid
  | .value => .normative

/-- `applyBillingPolicy` (lines 374-420): per proposal, mode branch, cap,
then rounding to `policy.minIncrementMinutes || 6` with `policy.roundUp ?? true`. -/
def applyBillingPolicy (proposals : List ProposedEntry) (pol : BillingPolicy) :
    List ProposedEntry :=
  proposals.map fun p =>
    { p with
      recommendedMinutes :=
        roundToIncrement (cappedRecommended p pol)
          (jsOrOpt pol.minIncrementMinutes 6) (pol.roundUp.getD true)
      basis := modeBasis pol.mode }

/-! ## Concrete inputs for the billing-policy claims -/

/-- A proposal with `normativeMinutes = 60` and `actualMinutes = 40`
(Scenario B of the spec). -/
def entryB : ProposedEntry :=
  { id := "pB", matter := ⟨some "M1", none, none⟩, date := "2025-01-02"
    taskCode := "research_issue", actualMinutes := some 40
    normativeMinutes := 60, recommendedMinutes := 60, basis := .normative
    description := "research", sourceEventIds := ["e1"] }

/-- A proposal with `normativeMinutes = 60` and recorded `actualMinutes = 0`
(an event group with no usable durations). -/
def entryZero : ProposedEntry :=
  { entryB with id := "pZ", actualMinutes := some 0 }

/-- A proposal with `normativeMinutes = 61` and `actualMinutes = 40`, whose
blend `61·0.5 + 40·0.5 = 50.5` is not an integer. -/
def entryHalf : ProposedEntry :=
  { entryB with id := "pH", normativeMinutes := 61 }

/-- A proposal with `normativeMinutes = 90` and `actualMinutes = 10`
(Scenario C of the spec). -/
def entryC : ProposedEntry :=
  { entryB with id := "pC", normativeMinutes := 90, actualMinutes := some 10 }

/-- A proposal with `normativeMinutes = 90` and recorded `actualMinutes = 0`. -/
def entryCZero : ProposedEntry :=
  { entryC with id := "pCZ", actualMinutes := some 0 }

/-- `mode = blended`, `blendRatio = 0.5`, no cap. -/
def polBlend : BillingPolicy :=
  { mode := .blended, blendWeight := some (1/2), minIncrementMinutes := none
    roundUp := none, capMultiplier := none }

/-- `mode = value`, `capMultiplier = 2`. -/
def polCap : BillingPolicy :=
  { mode := .value, blendWeight := none, minIncrementMinutes := none
    roundUp := none, capMultiplier := some 2 }

/-! ## Confidence
(`ValueBillingEngine.calculateConfidence`,
`src/src/chronometric/module/value-billing-engine.ts` lines 326-339) -/

/-- The `directEvidence` count of `calculateConfidence` (lines 330-332): the
number of events having at least one evidence item of type `direct`
(`events.filter((e) => e.evidence?.some((ev) => ev.type === 'direct')).length`). -/
def directCount (events : List SourceEvent) : ℕ :=
  (events.filter fun e =>
    match e.evidence with
    | some l => l.any fun ev => decide (ev.etype = EvidenceKind.direct)
    | none => false).length

/-- `calculateConfidence` (lines 326-339): starts at `DEFAULT_CONFIDENCE = 0.8`
(`src/unnamed/part_010` line 21); if any event carries direct evidence the
confidence becomes `min(0.95, 0.7 + directEvidence * 0.05)`. -/
def calculateConfidence (events : List SourceEvent) : ℚ :=
  if 0 < directCount events then
    min (19/20 : ℚ) (7/10 + (directCount events : ℚ) * (1/20))
  else 4/5

/-! ## Event aggregation
(`ChronometricModule.analyze` step 1,
`src/src/chronometric/module/chronometric-module.ts` lines 100-118) -/

/-- A data-source tool as the aggregation loop observes it: its metadata
name, its `isConfigured()` answer, and the outcome of `await
tool.fetchEvents(window)` — either events or a thrown error. -/
structure ChronoTool where
  name : String
  configured : Bool
  fetched : Except String (List SourceEvent)

/-- A tool contributes to the run iff it is configured and its fetch did not
throw. -/
def toolUsable (t : ChronoTool) : Bool :=
  t.configured &&
    match t.fetched with
    | .ok _ => true
    | .error _ => false

/-- The events of a successful fetch (empty for a thrown fetch). -/
def fetchedEvents (t : ChronoTool) : List SourceEvent :=
  match t.fetched with
  | .ok events => events
  | .error _ => []

/-- One iteration of the `for (const tool of this.tools)` loop (lines
104-118): skip unconfigured tools; on success append the events to
`allEvents` and the name to `toolsUsed`; a thrown fetch is caught and the
loop continues with the accumulator unchanged. -/
def aggregateStep (acc : List SourceEvent × List String) (tool : ChronoTool) :
    List SourceEvent × List String :=
  if tool.configured = false then acc
  else
    match tool.fetched with
    | .error _ => acc
    | .ok events => (acc.1 ++ events, acc.2 ++ [tool.name])

/-- Step 1 of `ChronometricModule.analyze`: the aggregated `(allEvents,
toolsUsed)` pair.  Totality of this function models that no connector error
propagates to the caller. -/
def aggregateEvents (tools : List ChronoTool) : List SourceEvent × List String :=
  tools.foldl aggregateStep ([], [])

/-! ## Duplicate detection
(`src/src/chronometric/module/duplicate-detection.ts`) -/

/-- JS `\w`: `[A-Za-z0-9_]`. -/
def isWordChar (c : Char) : Bool := c.isAlphanum || c = '_'

/-- `tokenize` (lines 149-155): lower-case, replace every character that is
neither a word character nor whitespace by a space, split on whitespace runs
and drop empty tokens. -/
def tokenize (str : String) : List String :=
  ((str.toLower.map fun c =>
      if isWordChar c || c.isWhitespace then c else ' ').split
    fun c => c.isWhitespace).filter (· ≠ "")

/-- `calculateStringSimilarity` (lines 126-141): token-set Jaccard
similarity; `0` when either string is falsy (empty) or has no tokens. -/
def calculateStringSimilarity (str1 str2 : String) : ℚ :=
  if str1 = "" || str2 = "" then 0
  else
    let tokens1 := tokenize str1.toLower
    let tokens2 := tokenize str2.toLower
    if tokens1.length = 0 || tokens2.length = 0 then 0
    else
      let set1 := tokens1.dedup
      let set2 := tokens2.dedup
      let inter := set1.filter fun x => set2.contains x
      let union := (set1 ++ set2).dedup
      (inter.length : ℚ) / (union.length : ℚ)

/-- The "Same matter" signal (lines 63-66):
`entry1.matter.matterId && entry1.matter.matterId === entry2.matter.matterId`
(an empty-string matter id is falsy and never matches). -/
def sameMatterId (e1 e2 : ProposedEntry) : Bool :=
  match e1.matter.matterId, e2.matter.matterId with
  | some s, some t => decide (s ≠ "") && decide (s = t)
  | _, _ => false

/-- The shared `sourceEventIds` of a pair (lines 88-90). -/
def sharedSources (e1 e2 : ProposedEntry) : List String :=
  e1.sourceEventIds.filter fun sid => e2.sourceEventIds.contains sid

/-- The "Similar duration" signal (lines 97-102):
`minutesDiff / avgMinutes < 0.1`.  When `avgMinutes = 0` the JS quotient is
`NaN` or `±Infinity` and the comparison is false, hence the explicit guard. -/
def similarDuration (e1 e2 : ProposedEntry) : Prop :=
  (e1.recommendedMinutes + e2.recommendedMinutes) / 2 ≠ 0 ∧
    |e1.recommendedMinutes - e2.recommendedMinutes| /
      ((e1.recommendedMinutes + e2.recommendedMinutes) / 2) < 1/10

instance (e1 e2 : ProposedEntry) : Decidable (similarDuration e1 e2) := by
  unfold similarDuration; infer_instance

/-- The cumulative similarity score of `checkDuplicatePair` (lines 49-102):
the sequential `similarity += …` accumulation written as a sum of guarded
addends — same date +30, same matter +20, same task code +25, description
similarity +20 (Jaccard > 0.8) or +10 (> 0.5), shared source events +30,
similar duration +10. -/
def pairSimilarity (e1 e2 : ProposedEntry) : ℚ :=
  (if e1.date = e2.date then 30 else 0) +
  (if sameMatterId e1 e2 then 20 else 0) +
  (if e1.taskCode = e2.taskCode then 25 else 0) +
  (let ds := calculateStringSimilarity e1.description e2.description
   if 4/5 < ds then 20 else if 1/2 < ds then 10 else 0) +
  (if 0 < (sharedSources e1 e2).length then 30 else 0) +
  (if similarDuration e1 e2 then 10 else 0)

/-- The `reasons` list accumulated alongside the score (lines 53-102). -/
def pairReasons (e1 e2 : ProposedEntry) : List String :=
  (if e1.date = e2.date then ["Same date"] else []) ++
  (if sameMatterId e1 e2 then ["Same matter"] else []) ++
  (if e1.taskCode = e2.taskCode then ["Same task type"] else []) ++
  (let ds := calculateStringSimilarity e1.description e2.description
   if 4/5 < ds then ["Similar description"]
   else if 1/2 < ds then ["Somewhat similar description"] else []) ++
  (if 0 < (sharedSources e1 e2).length then
    [toString (sharedSources e1 e2).length ++ " shared source event(s)"]
   else []) ++
  (if similarDuration e1 e2 then ["Similar duration"] else [])

/-- `DuplicateMatch` (lines 14-19). -/
structure DuplicateMatch where
  entry1 : ProposedEntry
  entry2 : ProposedEntry
  similarity : ℚ
  reasons : List String
deriving DecidableEq, Repr

/-- `checkDuplicatePair` (lines 49-117): a match is produced exactly when the
cumulative score reaches `DUPLICATE_THRESHOLD = 50`. -/
def checkDuplicatePair (e1 e2 : ProposedEntry) : Option DuplicateMatch :=
  if 50 ≤ pairSimilarity e1 e2 then
    some ⟨e1, e2, pairSimilarity e1 e2, pairReasons e1 e2⟩
  else none

/-- The out-of-bounds placeholder for positional indexing (never reached:
`detectDuplicates` only indexes inside the list). -/
def defaultEntry : ProposedEntry :=
  { id := "", matter := ⟨none, none, none⟩, date := "", taskCode := ""
    actualMinutes := none, normativeMinutes := 0, recommendedMinutes := 0
    basis := .normative, description := "", sourceEventIds := [] }

/-- `detectDuplicates` (lines 27-40): the nested loops
`for (i = 0; i < n; i++) for (j = i + 1; j < n; j++)`, keeping the pairs
`checkDuplicatePair` flags. -/
def detectDuplicates (entries : List ProposedEntry) : List DuplicateMatch :=
  (List.range entries.length).flatMap fun i =>
    ((List.range entries.length).filter fun j => i < j).filterMap fun j =>
      checkDuplicatePair (entries.getD i defaultEntry) (entries.getD j defaultEntry)

/-- `repeatableTasks` (lines 167-178). -/
def repeatableTasks : List String :=
  ["email_correspondence", "client_communication_email",
   "client_communication_phone", "opposing_counsel_communication",
   "court_staff_communication", "scheduling", "document_review",
   "research_caselaw", "research_statute", "case_management"]

/-- `isRepeatableTask` (lines 166-181). -/
def isRepeatableTask (taskCode : String) : Bool :=
  repeatableTasks.contains taskCode

/-- `filterRepeatableDuplicates` (lines 189-205): pairs of naturally
repeatable tasks on the same date are kept only at similarity ≥ 80. -/
def filterRepeatableDuplicates (duplicates : List DuplicateMatch) :
    List DuplicateMatch :=
  duplicates.filter fun dup =>
    if isRepeatableTask dup.entry1.taskCode &&
        isRepeatableTask dup.entry2.taskCode &&
        decide (dup.entry1.date = dup.entry2.date) then
      decide (80 ≤ dup.similarity)
    else true

/-- The index pairs `(i, j)` with `i < j < n` visited by the nested loops of
`detectDuplicates`, in visiting order. -/
def strictPairs (n : ℕ) : List (ℕ × ℕ) :=
  (List.range n).flatMap fun i =>
    ((List.range n).filter fun j => i < j).map fun j => (i, j)

/-! ## Concrete inputs for the confidence, aggregation and duplicate claims -/

/-- An event backed by one `direct` evidence item. -/
def evDirect : SourceEvent :=
  { id := "d1", timestamp := 0, endTimestamp := none
    durationMinutes := some 6, matter := none
    evidence := some [⟨.direct⟩] }

/-- A second event backed by one `direct` evidence item. -/
def evDirect2 : SourceEvent :=
  { evDirect with id := "d2", timestamp := 60000 }

/-- A plain event with no evidence, fetched by the mail tool. -/
def evMail : SourceEvent :=
  { id := "m1", timestamp := 0, endTimestamp := none
    durationMinutes := some 6, matter := none, evidence := none }

/-- A configured mail tool whose fetch succeeds. -/
def toolMail : ChronoTool :=
  { name := "email", configured := true, fetched := .ok [evMail] }

/-- A configured ledger tool whose fetch succeeds with no events. -/
def toolClio : ChronoTool :=
  { name := "clio", configured := true, fetched := .ok [] }

/-- A configured research tool whose fetch throws at runtime. -/
def toolFail : ChronoTool :=
  { name := "westlaw", configured := true, fetched := .error "network error" }

/-- Same-date, same-matter `email_correspondence` entry (Scenario D). -/
def entryD1 : ProposedEntry :=
  { id := "pD1", matter := ⟨some "M1", none, none⟩, date := "2025-01-02"
    taskCode := "email_correspondence", actualMinutes := some 6
    normativeMinutes := 6, recommendedMinutes := 6, basis := .normative
    description := "", sourceEventIds := ["ea"] }

/-- Counterpart of `entryD1`: same date, matter and task code; disjoint
sources and a far-apart duration, so the pair scores 30+20+25 = 75. -/
def entryD2 : ProposedEntry :=
  { entryD1 with id := "pD2", recommendedMinutes := 90, sourceEventIds := ["eb"] }

/-! ## Sessionizer
(`ValueBillingEngine.analyze`, `src/unnamed/part_004` lines 138-151) -/

/-- The sessionization gap threshold: `30 * 60000` milliseconds. -/
def GAP_MS : ℤ := 30 * 60000

/-- The `for (const ev of group)` sessionization loop (part_004 lines
139-151), with its state: the closed `sessions`, the open `current` session
and `lastTime`.  A new session starts when `t - lastTime > 30 * 60000`;
the open session is flushed when nonempty, both at a split and at the end. -/
def sessionizeGo : List SourceEvent → List (List SourceEvent) →
    List SourceEvent → Option ℤ → List (List SourceEvent)
  | [], sessions, current, _ =>
      sessions ++ (if current = [] then [] else [current])
  | ev :: rest, sessions, current, lastTime =>
      if (match lastTime with
          | some lt => decide (GAP_MS < ev.timestamp - lt)
          | none => false) then
        sessionizeGo rest (sessions ++ (if current = [] then [] else [current]))
          [ev] (some ev.timestamp)
      else
        sessionizeGo rest sessions (current ++ [ev]) (some ev.timestamp)

/-- `Sessionize: cluster events into 30-min gaps` (part_004 lines 138-151):
the loop starting from empty state. -/
def sessionize (group : List SourceEvent) : List (List SourceEvent) :=
  sessionizeGo group [] [] none

/-- Two consecutive events belong to the same session: gap at most 30
minutes. -/
def withinGap (a b : SourceEvent) : Prop :=
  b.timestamp - a.timestamp ≤ GAP_MS

instance (a b : SourceEvent) : Decidable (withinGap a b) := by
  unfold withinGap; infer_instance

/-- Two consecutive sessions are separated by a gap exceeding 30 minutes
(measured from the last event of the first to the first event of the
second). -/
def sessionSplit (s t : List SourceEvent) : Prop :=
  ∀ a ∈ s.getLast?, ∀ b ∈ t.head?, GAP_MS < b.timestamp - a.timestamp

/-! ## Sorting and matter grouping
(`ValueBillingEngine.analyze`, `src/unnamed/part_004` lines 112-131) -/

/-- The comparator of `analyze` line 112:
`(a, b) => a.timestamp.localeCompare(b.timestamp)` — on fixed-width ISO-8601
UTC strings this is exactly the order of the time values. -/
def tsLE (a b : SourceEvent) : Prop := a.timestamp ≤ b.timestamp

instance : DecidableRel tsLE := fun a b => by unfold tsLE; infer_instance

instance : IsTotal SourceEvent tsLE := ⟨fun a b => le_total a.timestamp b.timestamp⟩

instance : IsTrans SourceEvent tsLE := ⟨fun _ _ _ => le_trans⟩

/-- `[...input.events].sort(comparator)` (line 112): JavaScript
`Array.prototype.sort` is stable, so the model is a stable sort keyed by
`timestamp` alone — ties keep their input order. -/
def sortEvents (events : List SourceEvent) : List SourceEvent :=
  List.insertionSort tsLE events

/-- `minutesBetween` of `src/unnamed/part_004` lines 11-16:
`Math.max(0, Math.round((e - s) / 60000))`, `undefined` without an end. -/
def minutesBetweenMs (startMs : ℤ) (endMs : Option ℤ) : Option ℚ :=
  match endMs with
  | none => none
  | some e => some ((max 0 (jsRound (((e - startMs : ℤ) : ℚ) / 60000)) : ℤ) : ℚ)

/-- Lines 115-119 of `analyze`: attach derived durations where possible
(`if (ev.durationMinutes == null) ev.durationMinutes = minutesBetween(...)`). -/
def attachDurations (events : List SourceEvent) : List SourceEvent :=
  events.map fun ev =>
    if ev.durationMinutes = none then
      { ev with durationMinutes := minutesBetweenMs ev.timestamp ev.endTimestamp }
    else ev

/-- The matter grouping key of `analyze` lines 122-123:
`e.matter?.matterId || clientName-or-Internal :: matterName-or-Unassigned`
(an empty-string matter id is falsy and falls through to the template). -/
def matterKey (e : SourceEvent) : String :=
  match e.matter with
  | some m =>
      match m.matterId with
      | some s =>
          if s = "" then
            jsOrStr m.clientName "Internal" ++ "::" ++
              jsOrStr m.matterName "Unassigned"
          else s
      | none =>
          jsOrStr m.clientName "Internal" ++ "::" ++
            jsOrStr m.matterName "Unassigned"
  | none => "Internal::Unassigned"

/-- Lines 125-131 of `analyze`: the `Map`-based grouping loop.  Keys appear
in first-occurrence order and each group keeps the relative order of its
events, matching JavaScript `Map` iteration order. -/
def groupByKey (key : SourceEvent → String) (events : List SourceEvent) :
    List (String × List SourceEvent) :=
  events.foldl
    (fun groups ev =>
      if groups.any fun g => decide (g.1 = key ev) then
        groups.map fun g =>
          if g.1 = key ev then (g.1, g.2 ++ [ev]) else g
      else groups ++ [(key ev, [ev])])
    []

/-- The aggregation-to-sessionization pipeline of `analyze` (lines 112-157):
sort by timestamp, attach derived durations, group by matter key, sessionize
each matter group in order. -/
def analyzeSessions (events : List SourceEvent) :
    List (String × List (List SourceEvent)) :=
  (groupByKey matterKey (attachDurations (sortEvents events))).map
    fun g => (g.1, sessionize g.2)

/-- From the spec's words (§2/§4.2, for comparison with the code):
"one sorted (by timestamp, then source id for stability) event list". -/
def sortedByTimestampThenSourceId (events : List SourceEvent) : Prop :=
  events.Pairwise fun a b =>
    a.timestamp < b.timestamp ∨ (a.timestamp = b.timestamp ∧ a.id ≤ b.id)

instance (events : List SourceEvent) :
    Decidable (sortedByTimestampThenSourceId events) := by
  unfold sortedByTimestampThenSourceId; infer_instance

/-! ## Gap identification
(`ChronometricModule.identifyGaps`,
`src/src/chronometric/module/chronometric-module.ts` lines 145-182) -/

/-- `timestamp.slice(0, 10)` — the UTC calendar-day index of a millisecond
timestamp (floor division by 86 400 000). -/
def msDay (t : ℤ) : ℤ := Int.fdiv t 86400000

/-- Lines 157-162: the `dateMap` accumulation
`dateMap.set(date, (dateMap.get(date) || 0) + (event.durationMinutes || 0))`,
as the finitely supported function it builds (absent key reads as 0). -/
def buildDateMap (events : List SourceEvent) : ℤ → ℚ :=
  events.foldl
    (fun dm event => fun d =>
      if d = msDay event.timestamp then dm d + event.durationMinutes.getD 0
      else dm d)
    (fun _ => 0)

/-- Lines 165-179: the `while (currentDate <= endDate)` loop, stepping one
day (86 400 000 ms in the UTC model of `setDate(getDate() + 1)`) and
flagging each visited day whose recorded total is below 120 minutes.  Note
the end bound is inclusive. -/
def gapLoop (dm : ℤ → ℚ) (wend : ℤ) (current : ℤ) : List ℤ :=
  if current ≤ wend then
    (if dm (msDay current) < 120 then [msDay current] else []) ++
      gapLoop dm wend (current + 86400000)
  else []
termination_by (wend + 86400000 - current).toNat
decreasing_by omega

/-- `identifyGaps` (lines 145-182) given the ledger connector's fetched
events and the window bounds.  (The `isConfigured` guard that throws when
the Clio tool is absent, and the fetch itself, sit outside this modelled
fragment.) -/
def identifyGaps (events : List SourceEvent) (wstart wend : ℤ) : List ℤ :=
  gapLoop (buildDateMap events) wend wstart

/-- The summed recorded minutes of a calendar day. -/
def dayTotal (events : List SourceEvent) (d : ℤ) : ℚ :=
  ((events.filter fun e => decide (msDay e.timestamp = d)).map
    fun e => e.durationMinutes.getD 0).sum

/-! ## Concrete inputs for the gap-identification claim (Scenario E) -/

/-- Ledger activity: 30 recorded minutes on day 0. -/
def gapEv1 : SourceEvent :=
  { id := "g1", timestamp := 0, endTimestamp := none
    durationMinutes := some 30, matter := none, evidence := none }

/-- Ledger activity: 150 recorded minutes on day 1. -/
def gapEv2 : SourceEvent :=
  { gapEv1 with id := "g2", timestamp := 86400000, durationMinutes := some 150 }

/-! ## Concrete inputs for the sessionizer claims (Scenario A) -/

/-- Tie-breaking counterexample: source id `"a"`, timestamp 0, no duration. -/
def evTieA : SourceEvent :=
  { id := "a", timestamp := 0, endTimestamp := none
    durationMinutes := none, matter := none, evidence := none }

/-- Same timestamp as `evTieA`, source id `"b"`. -/
def evTieB : SourceEvent :=
  { evTieA with id := "b" }

/-- An event at 09:00 UTC (1970-01-01). -/
def ev0900 : SourceEvent :=
  { id := "a900", timestamp := 32400000, endTimestamp := none
    durationMinutes := some 6, matter := none, evidence := none }

/-- An event at 09:20 UTC on the same matter (gap 20 min). -/
def ev0920 : SourceEvent :=
  { ev0900 with id := "a920", timestamp := 33600000 }

/-- An event at 10:00 UTC on the same matter (gap 60 min from 09:00). -/
def ev1000 : SourceEvent :=
  { ev0900 with id := "a1000", timestamp := 36000000 }

/-! ## Theorems for claim C3 -/

/-- C3 counterexample: under `blended` with ratio `0.5` the pre-rounding
recommendation is not `normativeMinutes × r + actualMinutes × (1 − r)`.
(1) With `normativeMinutes = 60` and `actualMinutes = 0` the code substitutes
`normativeMinutes` for the falsy actual and yields `60`, not `30`.
(2) With `normativeMinutes = 61` and `actualMinutes = 40` the code applies
`Math.round` to the blend `50.5` and yields `51`, not `50.5`. -/
theorem blended_preround_counterexample :
    cappedRecommended entryZero polBlend = 60 ∧
    (60 : ℚ) ≠ 60 * (1/2) + 0 * (1 - 1/2) ∧
    cappedRecommended entryHalf polBlend = 51 ∧
    (51 : ℚ) ≠ 61 * (1/2) + 40 * (1 - 1/2) := by
  refine ⟨?_, by norm_num, ?_, by norm_num⟩ <;>
    · show cappedRecommended _ _ = _
      unfold cappedRecommended modeRecommended
      simp [entryZero, entryHalf, entryB, polBlend, truthyOpt, jsOrOpt, jsRound]
      norm_num [Int.floor_eq_iff]

/-- C3 (amended): for every proposal under `blended` with ratio `r` and no
cap, the pre-rounding recommendation is
`Math.round(normativeMinutes × r + a × (1 − r))` where `a` is
`actualMinutes` when present and nonzero and `normativeMinutes` otherwise
(a falsy `actualMinutes` of `0` falls back); whenever the blend is an
integer the result equals the exact blend, as in the scenario
`normativeMinutes = 60`, `actualMinutes = 40`, `r = 0.5 ⇒ 50`. -/
theorem blended_preround_amended (p : ProposedEntry) (pol : BillingPolicy)
    (hmode : pol.mode = .blended) (hcap : pol.capMultiplier = none) :
    cappedRecommended p pol =
      (jsRound (p.normativeMinutes * pol.blendWeight.getD (1/2) +
        jsOrOpt p.actualMinutes p.normativeMinutes *
          (1 - pol.blendWeight.getD (1/2))) : ℚ) ∧
    (∀ x : ℚ, p.actualMinutes = some x → x ≠ 0 →
      jsOrOpt p.actualMinutes p.normativeMinutes = x) ∧
    (p.actualMinutes = some 0 ∨ p.actualMinutes = none →
      jsOrOpt p.actualMinutes p.normativeMinutes = p.normativeMinutes) ∧
    ∀ k : ℤ,
      p.normativeMinutes * pol.blendWeight.getD (1/2) +
          jsOrOpt p.actualMinutes p.normativeMinutes *
            (1 - pol.blendWeight.getD (1/2)) = (k : ℚ) →
      cappedRecommended p pol =
        p.normativeMinutes * pol.blendWeight.getD (1/2) +
          jsOrOpt p.actualMinutes p.normativeMinutes *
            (1 - pol.blendWeight.getD (1/2)) := by
  have hbase : cappedRecommended p pol =
      (jsRound (p.normativeMinutes * pol.blendWeight.getD (1/2) +
        jsOrOpt p.actualMinutes p.normativeMinutes *
          (1 - pol.blendWeight.getD (1/2))) : ℚ) := by
    unfold cappedRecommended modeRecommended
    rw [hmode, hcap]
    simp [truthyOpt]
  refine ⟨hbase, ?_, ?_, fun k hk => ?_⟩
  · intro x hx hx0
    rw [hx]
    simp [jsOrOpt, hx0]
  · rintro (hx | hx) <;> rw [hx] <;> simp [jsOrOpt]
  · rw [hbase, hk]
    unfold jsRound
    rw [add_comm ((k : ℚ)) (1/2), Int.floor_add_int]
    norm_num

/-- Witness for C3 (amended) at both branches: Scenario B
(`normativeMinutes = 60`, `actualMinutes = 40`, ratio `0.5`) uses the
nonzero actual and gives exactly `50`; with `actualMinutes = 0` the blend
falls back to `normativeMinutes` on both sides and gives `60`. -/
theorem blended_preround_amended_witness :
    cappedRecommended entryB polBlend = 50 ∧
    jsOrOpt entryB.actualMinutes entryB.normativeMinutes = 40 ∧
    cappedRecommended entryZero polBlend = 60 ∧
    jsOrOpt entryZero.actualMinutes entryZero.normativeMinutes = 60 := by
  have hB := blended_preround_amended entryB polBlend rfl rfl
  have hZ := blended_preround_amended entryZero polBlend rfl rfl
  have hargB : entryB.normativeMinutes * polBlend.blendWeight.getD (1/2) +
      jsOrOpt entryB.actualMinutes entryB.normativeMinutes *
        (1 - polBlend.blendWeight.getD (1/2)) = ((50 : ℤ) : ℚ) := by
    norm_num [entryB, polBlend, jsOrOpt]
  have hargZ : entryZero.normativeMinutes * polBlend.blendWeight.getD (1/2) +
      jsOrOpt entryZero.actualMinutes entryZero.normativeMinutes *
        (1 - polBlend.blendWeight.getD (1/2)) = ((60 : ℤ) : ℚ) := by
    norm_num [entryZero, entryB, polBlend, jsOrOpt]
  refine ⟨(hB.2.2.2 50 hargB).trans (by exact_mod_cast hargB),
    hB.2.1 40 rfl (by norm_num),
    (hZ.2.2.2 60 hargZ).trans (by exact_mod_cast hargZ),
    hZ.2.2.1 (Or.inl rfl)⟩

/-! ## Theorems for claim C4 -/

/-- C4 counterexample: with `capMultiplier = 2` set and `actualMinutes`
present but equal to `0`, the cap is skipped (a falsy `0` fails the
`policy.capMultiplier && proposal.actualMinutes` guard) and the pre-rounding
recommendation stays `90`, above the claimed cap `0 × 2 = 0`. -/
theorem cap_counterexample :
    entryCZero.actualMinutes = some 0 ∧
    cappedRecommended entryCZero polCap = 90 ∧
    ¬ cappedRecommended entryCZero polCap ≤ 0 * 2 := by
  refine ⟨rfl, ?_, ?_⟩ <;>
    norm_num [cappedRecommended, modeRecommended, entryCZero, entryC, entryB,
      polCap, truthyOpt, jsOrOpt]

/-- C4 (amended): when `capMultiplier` is set and nonzero and `actualMinutes`
is present and nonzero, the pre-rounding recommendation is the mode
recommendation capped at `actualMinutes × capMultiplier` — in particular it
never exceeds that product. -/
theorem cap_applies (p : ProposedEntry) (pol : BillingPolicy) (a c : ℚ)
    (ha : p.actualMinutes = some a) (ha0 : a ≠ 0)
    (hc : pol.capMultiplier = some c) (hc0 : c ≠ 0) :
    cappedRecommended p pol = min (modeRecommended p pol) (a * c) ∧
    cappedRecommended p pol ≤ a * c := by
  have hcap : cappedRecommended p pol = min (modeRecommended p pol) (a * c) := by
    unfold cappedRecommended
    simp [truthyOpt, ha, hc, ha0, hc0]
  exact ⟨hcap, hcap ▸ min_le_right _ _⟩

/-- Witness for C4 at Scenario C: `actualMinutes = 10`, `capMultiplier = 2`,
`normativeMinutes = 90` (value mode) gives a pre-rounding recommendation of
`min 90 20 = 20 ≤ 20`. -/
theorem cap_applies_witness :
    (cappedRecommended entryC polCap = min (modeRecommended entryC polCap) (10 * 2) ∧
      cappedRecommended entryC polCap ≤ 10 * 2) ∧
    cappedRecommended entryC polCap = 20 := by
  have h := cap_applies entryC polCap 10 2 rfl (by norm_num) rfl (by norm_num)
  refine ⟨h, ?_⟩
  rw [h.1]
  norm_num [modeRecommended, entryC, entryB, polCap]

/-! ## Theorems for claim C5 -/

theorem roundToIncrement_eq_ceil (m inc : ℚ) (hm : 0 < m) (hinc : 0 < inc) :
    roundToIncrement m inc true = (⌈m / inc⌉ : ℚ) * inc := by
  unfold roundToIncrement
  rw [if_neg (by linarith), if_neg (by linarith)]
  simp only [jsMod]
  by_cases h : m - inc * ⌊m / inc⌋ = 0
  · rw [if_pos h]
    have hfloor : (⌊m / inc⌋ : ℚ) = m / inc := by
      field_simp at h
      field_simp
      linarith
    have : ⌈m / inc⌉ = ⌊m / inc⌋ := by
      rw [← hfloor]
      exact Int.ceil_intCast _
    rw [this, hfloor]
    field_simp
  · rw [if_neg h, if_pos trivial]
    have hne : (⌊m / inc⌋ : ℚ) ≠ m / inc := by
      intro heq
      apply h
      have : inc * (m / inc) = m := by field_simp
      rw [heq, this]
      ring
    have hlt : (⌊m / inc⌋ : ℚ) < m / inc :=
      lt_of_le_of_ne (Int.floor_le _) hne
    have hceil : ⌈m / inc⌉ = ⌊m / inc⌋ + 1 := by
      have h1 : ⌈m / inc⌉ ≤ ⌊m / inc⌋ + 1 := by
        apply Int.ceil_le.mpr
        push_cast
        exact (Int.lt_floor_add_one _).le
      have h2 : ⌊m / inc⌋ + 1 ≤ ⌈m / inc⌉ := by
        have : (⌊m / inc⌋ : ℚ) < (⌈m / inc⌉ : ℚ) :=
          lt_of_lt_of_le hlt (Int.le_ceil _)
        exact_mod_cast Int.add_one_le_of_lt (by exact_mod_cast this)
      omega
    rw [hceil]
    push_cast
    ring

/-- C5: for every `m > 0` and positive increment `inc`,
`roundToIncrement(m, inc, roundUp := true)` returns the smallest multiple of
`inc` that is greater than or equal to `m`. -/
theorem roundToIncrement_roundUp_least_multiple (m inc : ℚ) (hm : 0 < m)
    (hinc : 0 < inc) :
    (∃ k : ℤ, roundToIncrement m inc true = (k : ℚ) * inc) ∧
    m ≤ roundToIncrement m inc true ∧
    ∀ k : ℤ, m ≤ (k : ℚ) * inc → roundToIncrement m inc true ≤ (k : ℚ) * inc := by
  rw [roundToIncrement_eq_ceil m inc hm hinc]
  refine ⟨⟨⌈m / inc⌉, rfl⟩, ?_, ?_⟩
  · have h := Int.le_ceil (m / inc)
    calc m = m / inc * inc := by field_simp
    _ ≤ (⌈m / inc⌉ : ℚ) * inc := by
      apply mul_le_mul_of_nonneg_right h hinc.le
  · intro k hk
    have hdiv : m / inc ≤ (k : ℚ) := by
      rw [div_le_iff₀ hinc]
      exact hk
    have hceil : ⌈m / inc⌉ ≤ k := Int.ceil_le.mpr hdiv
    apply mul_le_mul_of_nonneg_right _ hinc.le
    exact_mod_cast hceil

/-- Witness for C5 at `m = 7`, `inc = 6`: the result is a multiple of 6, at
least 7, and below every multiple of 6 that is at least 7. -/
theorem roundToIncrement_roundUp_least_multiple_witness :
    (∃ k : ℤ, roundToIncrement 7 6 true = (k : ℚ) * 6) ∧
    (7 : ℚ) ≤ roundToIncrement 7 6 true ∧
    ∀ k : ℤ, (7 : ℚ) ≤ (k : ℚ) * 6 → roundToIncrement 7 6 true ≤ (k : ℚ) * 6 :=
  roundToIncrement_roundUp_least_multiple 7 6 (by norm_num) (by norm_num)

/-! ## Theorems for claim C9 -/

/-- C9 counterexample: a group backed by exactly one direct-evidence event
gets confidence `min(0.95, 0.7 + 1·0.05) = 0.75`, strictly below the 0.8
baseline — the claim that confidence is never below the baseline fails. -/
theorem calculateConfidence_counterexample :
    calculateConfidence [evDirect] = 3/4 ∧ (3/4 : ℚ) < 4/5 := by
  constructor
  · have h1 : directCount [evDirect] = 1 := by decide
    rw [calculateConfidence, h1]
    norm_num
  · norm_num

/-- C9 (amended): the proposal confidence is the baseline `0.8` when no event
of the group has direct evidence; with `k ≥ 1` direct-evidence events it is
`min(0.95, 0.7 + 0.05·k)` — equal to `0.75` (below the baseline) at `k = 1`,
at least the baseline again from `k = 2`, never above `0.95`, and
nondecreasing in the direct-evidence count `k` for `k ≥ 1`. -/
theorem calculateConfidence_amended (events : List SourceEvent) :
    (directCount events = 0 → calculateConfidence events = 4/5) ∧
    (directCount events = 1 → calculateConfidence events = 3/4) ∧
    (2 ≤ directCount events → 4/5 ≤ calculateConfidence events) ∧
    calculateConfidence events ≤ 19/20 ∧
    ∀ events2 : List SourceEvent, 1 ≤ directCount events →
      directCount events ≤ directCount events2 →
      calculateConfidence events ≤ calculateConfidence events2 := by
  refine ⟨fun h => by rw [calculateConfidence, h]; norm_num, ?_, ?_, ?_, ?_⟩
  · intro h
    rw [calculateConfidence, h]
    norm_num
  · intro h
    rw [calculateConfidence, if_pos (by omega)]
    have hk : (2 : ℚ) ≤ (directCount events : ℚ) := by exact_mod_cast h
    rw [le_min_iff]
    constructor <;> nlinarith
  · rw [calculateConfidence]
    split
    · exact min_le_left _ _
    · norm_num
  · intro events2 h1 h2
    rw [calculateConfidence, calculateConfidence, if_pos (by omega),
      if_pos (by omega)]
    have hk : (directCount events : ℚ) ≤ (directCount events2 : ℚ) := by
      exact_mod_cast h2
    exact min_le_min le_rfl (by nlinarith)

/-- Witness for C9 (amended): the empty group keeps the baseline `0.8`, and a
two-direct-event group stays at most `0.95`. -/
theorem calculateConfidence_amended_witness :
    calculateConfidence [] = 4/5 ∧
    calculateConfidence [evDirect, evDirect2] ≤ 19/20 :=
  ⟨(calculateConfidence_amended []).1 rfl,
   (calculateConfidence_amended [evDirect, evDirect2]).2.2.2.1⟩

/-! ## Theorems for claim C8 -/

/-- Closed form of the aggregation loop: the events of the usable tools in
order, and the names of the usable tools in order. -/
theorem aggregateEvents_foldl (tools : List ChronoTool) :
    ∀ init : List SourceEvent × List String,
      tools.foldl aggregateStep init =
        (init.1 ++ (tools.filter toolUsable).flatMap fetchedEvents,
         init.2 ++ (tools.filter toolUsable).map ChronoTool.name) := by
  induction tools with
  | nil => intro init; simp
  | cons t ts ih =>
    intro init
    rw [List.foldl_cons, ih]
    by_cases hc : t.configured
    · cases hf : t.fetched with
      | ok events =>
        have hu : toolUsable t = true := by simp [toolUsable, hc, hf]
        simp [aggregateStep, hc, hf, hu, List.filter_cons, fetchedEvents]
      | error msg =>
        have hu : toolUsable t = false := by simp [toolUsable, hf]
        simp [aggregateStep, hc, hf, hu, List.filter_cons]
    · have hu : toolUsable t = false := by simp [toolUsable, hc]
      simp [aggregateStep, hc, hu, List.filter_cons]

/-- C8: a configured connector whose runtime fetch throws is caught inside the
loop and contributes nothing: the analysis result equals the result without
that connector (all other connectors' events unaffected), and `toolsUsed`
lists exactly the configured, successfully fetching connectors — so the
failed connector's name is absent unless another successful tool shares it.
Totality of `aggregateEvents` models that the error never reaches the caller. -/
theorem connector_failure_isolated (pre post : List ChronoTool)
    (t : ChronoTool) (hconf : t.configured = true) (msg : String)
    (herr : t.fetched = .error msg) :
    aggregateEvents (pre ++ t :: post) = aggregateEvents (pre ++ post) ∧
    (aggregateEvents (pre ++ t :: post)).2 =
      ((pre ++ post).filter toolUsable).map ChronoTool.name := by
  have hu : toolUsable t = false := by simp [toolUsable, herr]
  have hfilter : (pre ++ t :: post).filter toolUsable =
      (pre ++ post).filter toolUsable := by
    simp [List.filter_append, List.filter_cons, hu]
  unfold aggregateEvents
  rw [aggregateEvents_foldl, aggregateEvents_foldl, hfilter]
  exact ⟨rfl, by simp⟩

/-- Witness for C8: with a successful mail tool, a throwing research tool and
a successful ledger tool, the run equals the run without the throwing tool
and `toolsUsed` holds exactly the two successful names. -/
theorem connector_failure_isolated_witness :
    (aggregateEvents ([toolMail] ++ toolFail :: [toolClio]) =
      aggregateEvents ([toolMail] ++ [toolClio]) ∧
    (aggregateEvents ([toolMail] ++ toolFail :: [toolClio])).2 =
      (([toolMail] ++ [toolClio]).filter toolUsable).map ChronoTool.name) ∧
    (aggregateEvents ([toolMail] ++ toolFail :: [toolClio])).2 =
      ["email", "clio"] := by
  refine ⟨connector_failure_isolated [toolMail] [toolClio] toolFail rfl
    "network error" rfl, ?_⟩
  decide

/-! ## Theorems for claim C10 -/

/-- Inversion for `checkDuplicatePair`: a produced match scores at least the
50-point threshold and carries the two scored entries. -/
theorem checkDuplicatePair_some {a b : ProposedEntry} {m : DuplicateMatch}
    (h : checkDuplicatePair a b = some m) :
    50 ≤ m.similarity ∧ m.entry1 = a ∧ m.entry2 = b := by
  by_cases hs : 50 ≤ pairSimilarity a b
  · rw [checkDuplicatePair, if_pos hs] at h
    cases h
    exact ⟨hs, rfl, rfl⟩
  · rw [checkDuplicatePair, if_neg hs] at h
    cases h

/-- C10: `detectDuplicates` is the scan of exactly the index pairs
`(i, j)` with `i < j < n` — a duplicate-free pair list — so each unordered
pair is considered at most once; every returned match pairs the entries at
two distinct positions `i < j` of the input and scores at least 50. -/
theorem detectDuplicates_invariants (entries : List ProposedEntry) :
    detectDuplicates entries =
      (strictPairs entries.length).filterMap (fun ij =>
        checkDuplicatePair (entries.getD ij.1 defaultEntry)
          (entries.getD ij.2 defaultEntry)) ∧
    (strictPairs entries.length).Nodup ∧
    (∀ ij ∈ strictPairs entries.length, ij.1 < ij.2 ∧ ij.2 < entries.length) ∧
    ∀ m ∈ detectDuplicates entries,
      50 ≤ m.similarity ∧
      ∃ i j : ℕ, i < j ∧ j < entries.length ∧
        m.entry1 = entries.getD i defaultEntry ∧
        m.entry2 = entries.getD j defaultEntry := by
  refine ⟨?_, ?_, ?_, ?_⟩
  · unfold detectDuplicates strictPairs
    rw [List.filterMap_flatMap]
    congr 1
    funext i
    rw [List.filterMap_map]
    rfl
  · unfold strictPairs
    rw [List.nodup_flatMap]
    constructor
    · intro i _
      exact (((List.nodup_range _).filter _).map (by
        intro a b hab
        simpa using congrArg Prod.snd hab))
    · have hr : (List.range entries.length).Nodup := List.nodup_range _
      refine hr.imp ?_
      intro i j hij x hx hx'
      simp only [List.mem_map, List.mem_filter] at hx hx'
      obtain ⟨a, _, rfl⟩ := hx
      obtain ⟨b, _, hb⟩ := hx'
      exact hij (congrArg Prod.fst hb).symm
  · intro ij hij
    unfold strictPairs at hij
    simp only [List.mem_flatMap, List.mem_map, List.mem_filter,
      List.mem_range, decide_eq_true_eq] at hij
    obtain ⟨i, hi, j, ⟨hj, hlt⟩, rfl⟩ := hij
    exact ⟨hlt, hj⟩
  · intro m hm
    unfold detectDuplicates at hm
    simp only [List.mem_flatMap, List.mem_filterMap, List.mem_filter,
      List.mem_range, decide_eq_true_eq] at hm
    obtain ⟨i, hi, j, ⟨hj, hij⟩, hcheck⟩ := hm
    obtain ⟨hs, h1, h2⟩ := checkDuplicatePair_some hcheck
    exact ⟨hs, i, j, hij, hj, h1, h2⟩

/-- Witness for C10 at a concrete two-entry batch: the visited pair list is
duplicate-free and every reported match scores at least 50 and points at two
distinct positions. -/
theorem detectDuplicates_invariants_witness :
    (strictPairs (List.length [entryD1, entryD2])).Nodup ∧
    ∀ m ∈ detectDuplicates [entryD1, entryD2],
      50 ≤ m.similarity ∧
      ∃ i j : ℕ, i < j ∧ j < (List.length [entryD1, entryD2]) ∧
        m.entry1 = List.getD [entryD1, entryD2] i defaultEntry ∧
        m.entry2 = List.getD [entryD1, entryD2] j defaultEntry :=
  ⟨(detectDuplicates_invariants [entryD1, entryD2]).2.1,
   (detectDuplicates_invariants [entryD1, entryD2]).2.2.2⟩

/-! ## Theorems for claim C6 -/

/-- C6: a pair scoring at least 50 is reported by the
`detectDuplicates`/`filterRepeatableDuplicates` pipeline iff it is not a
same-date pair of naturally repeatable task codes, or it also scores at
least 80. -/
theorem repeatable_duplicate_threshold (e1 e2 : ProposedEntry)
    (h : 50 ≤ pairSimilarity e1 e2) :
    (filterRepeatableDuplicates (detectDuplicates [e1, e2]) ≠ [] ↔
      (¬(isRepeatableTask e1.taskCode = true ∧ isRepeatableTask e2.taskCode = true ∧
          e1.date = e2.date) ∨ 80 ≤ pairSimilarity e1 e2)) := by
  have hc : checkDuplicatePair e1 e2 =
      some ⟨e1, e2, pairSimilarity e1 e2, pairReasons e1 e2⟩ := by
    rw [checkDuplicatePair, if_pos h]
  have hdd : detectDuplicates [e1, e2] =
      [⟨e1, e2, pairSimilarity e1 e2, pairReasons e1 e2⟩] := by
    unfold detectDuplicates
    norm_num [List.range_succ, List.filter_cons, List.filter_nil,
      List.filterMap_cons, List.getD_cons_succ, List.getD_cons_zero, hc]
  rw [hdd]
  simp only [filterRepeatableDuplicates, List.filter_cons, List.filter_nil]
  by_cases h1 : isRepeatableTask e1.taskCode = true <;>
    by_cases h2 : isRepeatableTask e2.taskCode = true <;>
      by_cases h3 : e1.date = e2.date <;>
        by_cases h80 : 80 ≤ pairSimilarity e1 e2 <;>
          simp [h1, h2, h3, h80]

/-- Witness for C6 (Scenario D): two same-date, same-matter
`email_correspondence` entries scoring exactly 75 — at least 50 but below
80 — are not reported. -/
theorem repeatable_duplicate_threshold_witness :
    (50 : ℚ) ≤ pairSimilarity entryD1 entryD2 ∧
    (filterRepeatableDuplicates (detectDuplicates [entryD1, entryD2]) ≠ [] ↔
      (¬(isRepeatableTask entryD1.taskCode = true ∧
          isRepeatableTask entryD2.taskCode = true ∧
          entryD1.date = entryD2.date) ∨
        80 ≤ pairSimilarity entryD1 entryD2)) ∧
    pairSimilarity entryD1 entryD2 = 75 ∧
    filterRepeatableDuplicates (detectDuplicates [entryD1, entryD2]) = [] := by
  have h75 : pairSimilarity entryD1 entryD2 = 75 := by
    norm_num [pairSimilarity, entryD1, entryD2, sameMatterId, sharedSources,
      similarDuration, calculateStringSimilarity]
    rw [if_neg (by decide), if_neg (by decide)]
    norm_num
  have h50 : (50 : ℚ) ≤ pairSimilarity entryD1 entryD2 := by rw [h75]; norm_num
  have hiff := repeatable_duplicate_threshold entryD1 entryD2 h50
  refine ⟨h50, hiff, h75, ?_⟩
  have hnone : ¬ (filterRepeatableDuplicates
      (detectDuplicates [entryD1, entryD2]) ≠ []) := by
    intro hne
    rcases hiff.mp hne with hnot | h80
    · exact hnot ⟨rfl, rfl, rfl⟩
    · rw [h75] at h80
      norm_num at h80
  exact not_ne_iff.mp hnone

/-! ## Theorems for claim C1 -/

/-- The closed sessions accumulated so far are a passive prefix of the loop
result. -/
theorem sessionizeGo_append (rest : List SourceEvent) :
    ∀ (sessions : List (List SourceEvent)) (current : List SourceEvent)
      (lt : Option ℤ),
      sessionizeGo rest sessions current lt =
        sessions ++ sessionizeGo rest [] current lt := by
  induction rest with
  | nil => intro sessions current lt; simp [sessionizeGo]
  | cons ev rest ih =>
    intro sessions current lt
    simp only [sessionizeGo]
    by_cases hsplit : (match lt with
        | some l => decide (GAP_MS < ev.timestamp - l)
        | none => false) = true
    · rw [if_pos hsplit, if_pos hsplit]
      simp only [List.nil_append]
      rw [ih (sessions ++ if current = [] then [] else [current]) [ev]
          (some ev.timestamp),
        ih (if current = [] then [] else [current]) [ev] (some ev.timestamp)]
      simp [List.append_assoc]
    · rw [if_neg hsplit, if_neg hsplit, ih]

/-- Loop invariant: starting from an open session `current` whose last event
is `a` (and `lastTime = a.timestamp`), the produced sessions flatten back to
`current ++ rest`, are nonempty with internal gaps at most the threshold,
are separated by gaps exceeding the threshold, and the first one starts with
the first event of `current`. -/
theorem sessionizeGo_spec (rest : List SourceEvent) :
    ∀ (current : List SourceEvent) (a : SourceEvent),
      current.getLast? = some a →
      current.Chain' withinGap →
      (sessionizeGo rest [] current (some a.timestamp)).flatten =
          current ++ rest ∧
      (∀ s ∈ sessionizeGo rest [] current (some a.timestamp),
        s ≠ [] ∧ s.Chain' withinGap) ∧
      (sessionizeGo rest [] current (some a.timestamp)).Chain' sessionSplit ∧
      ∃ s₁ tl, sessionizeGo rest [] current (some a.timestamp) = s₁ :: tl ∧
        s₁.head? = current.head? := by
  induction rest with
  | nil =>
    intro current a hlast hchain
    have hne : current ≠ [] := by
      intro h
      rw [h] at hlast
      cases hlast
    simp only [sessionizeGo, if_neg hne, List.nil_append]
    refine ⟨by simp, ?_, ?_, current, [], rfl, rfl⟩
    · intro s hs
      rw [List.mem_singleton] at hs
      subst hs
      exact ⟨hne, hchain⟩
    · simp
  | cons ev rest ih =>
    intro current a hlast hchain
    have hne : current ≠ [] := by
      intro h
      rw [h] at hlast
      cases hlast
    simp only [sessionizeGo]
    by_cases hgap : GAP_MS < ev.timestamp - a.timestamp
    · rw [if_pos (by simpa using hgap), if_neg hne, List.nil_append,
        sessionizeGo_append]
      obtain ⟨hflat, hall, hchain', s₁, tl, heq, hhead⟩ :=
        ih [ev] ev rfl (by simp)
      refine ⟨?_, ?_, ?_, current, _, rfl, rfl⟩
      · simp [List.flatten_cons, hflat]
      · intro s hs
        rcases List.mem_cons.mp hs with h | h
        · subst h
          exact ⟨hne, hchain⟩
        · exact hall s h
      · rw [List.singleton_append, heq, List.chain'_cons]
        refine ⟨?_, heq ▸ hchain'⟩
        intro x hx y hy
        rw [hlast, Option.mem_some_iff] at hx
        rw [hhead] at hy
        simp only [List.head?_cons, Option.mem_some_iff] at hy
        subst hx
        subst hy
        exact hgap
    · rw [if_neg (by simpa using hgap)]
      have hlast' : (current ++ [ev]).getLast? = some ev := by simp
      have hchain'' : (current ++ [ev]).Chain' withinGap := by
        rw [List.chain'_append]
        refine ⟨hchain, List.chain'_singleton _, ?_⟩
        intro x hx y hy
        simp only [List.head?_cons, Option.mem_some_iff] at hy
        rw [hlast, Option.mem_some_iff] at hx
        subst hx
        subst hy
        exact not_lt.mp hgap
      obtain ⟨hflat, hall, hchain', s₁, tl, heq, hhead⟩ :=
        ih (current ++ [ev]) ev hlast' hchain''
      refine ⟨by simpa [List.append_assoc] using hflat, hall, hchain',
        s₁, tl, heq, ?_⟩
      rw [hhead]
      cases current with
      | nil => exact absurd rfl hne
      | cons c cs => simp

/-- C1: for every matter group, the sessionizer partitions the group's
events, in order, into nonempty sessions; inside a session every
consecutive-event gap is at most 30 minutes, and consecutive sessions are
separated by a gap exceeding 30 minutes — i.e. a new session starts exactly
when the gap since the previous event exceeds the 30-minute threshold.  In
particular events at 09:00 and 09:20 yield one session and events at 09:00
and 10:00 yield two. -/
theorem sessionize_gap_split (group : List SourceEvent) :
    (sessionize group).flatten = group ∧
    (∀ s ∈ sessionize group, s ≠ [] ∧ s.Chain' withinGap) ∧
    (sessionize group).Chain' sessionSplit ∧
    sessionize [ev0900, ev0920] = [[ev0900, ev0920]] ∧
    sessionize [ev0900, ev1000] = [[ev0900], [ev1000]] := by
  have hmain : ∀ g : List SourceEvent,
      (sessionize g).flatten = g ∧
      (∀ s ∈ sessionize g, s ≠ [] ∧ s.Chain' withinGap) ∧
      (sessionize g).Chain' sessionSplit := by
    intro g
    cases g with
    | nil =>
      refine ⟨rfl, ?_, ?_⟩
      · intro s hs
        simp [sessionize, sessionizeGo] at hs
      · simp [sessionize, sessionizeGo]
    | cons e rest =>
      unfold sessionize
      simp only [sessionizeGo, if_neg (by simp : ¬(false = true)), List.nil_append]
      obtain ⟨hflat, hall, hchain, -⟩ := sessionizeGo_spec rest [e] e rfl (by simp)
      exact ⟨by simpa using hflat, hall, hchain⟩
  exact ⟨(hmain group).1, (hmain group).2.1, (hmain group).2.2, by decide, by decide⟩

/-- Witness for C1 at a concrete three-event group (09:00, 09:20, 10:00):
the sessions flatten back to the group and each session is nonempty with
internal gaps at most 30 minutes. -/
theorem sessionize_gap_split_witness :
    (sessionize [ev0900, ev0920, ev1000]).flatten = [ev0900, ev0920, ev1000] ∧
    ∀ s ∈ sessionize [ev0900, ev0920, ev1000], s ≠ [] ∧ s.Chain' withinGap :=
  ⟨(sessionize_gap_split [ev0900, ev0920, ev1000]).1,
   (sessionize_gap_split [ev0900, ev0920, ev1000]).2.1⟩

/-! ## Theorems for claim C2 -/

/-- Sorted permutations with pairwise-distinct timestamps coincide. -/
theorem sorted_perm_eq_of_nodup_ts :
    ∀ l₁ l₂ : List SourceEvent, l₁.Perm l₂ →
      l₁.Sorted tsLE → l₂.Sorted tsLE →
      (l₁.map SourceEvent.timestamp).Nodup → l₁ = l₂ := by
  intro l₁
  induction l₁ with
  | nil =>
    intro l₂ hp _ _ _
    exact hp.nil_eq
  | cons a t ih =>
    intro l₂ hp hs₁ hs₂ hnd
    cases l₂ with
    | nil => cases hp.eq_nil
    | cons b t₂ =>
      have hab : a = b := by
        by_contra hne
        have hmem_b : b ∈ t := by
          rcases List.mem_cons.mp (hp.symm.subset (List.mem_cons_self b t₂))
            with h | h
          · exact absurd h.symm hne
          · exact h
        have hmem_a : a ∈ t₂ := by
          rcases List.mem_cons.mp (hp.subset (List.mem_cons_self a t))
            with h | h
          · exact absurd h hne
          · exact h
        have h₁ : a.timestamp ≤ b.timestamp :=
          (List.sorted_cons.mp hs₁).1 b hmem_b
        have h₂ : b.timestamp ≤ a.timestamp :=
          (List.sorted_cons.mp hs₂).1 a hmem_a
        have heq : b.timestamp = a.timestamp := le_antisymm h₂ h₁
        have : a.timestamp ∈ t.map SourceEvent.timestamp :=
          heq ▸ List.mem_map_of_mem SourceEvent.timestamp hmem_b
        exact (List.nodup_cons.mp hnd).1 this
      subst hab
      have hp' : t.Perm t₂ := (List.perm_cons a).mp hp
      rw [ih t₂ hp' (List.sorted_cons.mp hs₁).2 (List.sorted_cons.mp hs₂).2
        (List.nodup_cons.mp hnd).2]

/-- C2 counterexample: with two same-timestamp events delivered as
`[b-event, a-event]`, the sorted list is NOT ordered by source id on the tie
(JavaScript's stable sort keeps delivery order, there is no id tie-break),
and the two delivery orders of the same logical event set produce different
session lists. -/
theorem aggregation_tiebreak_counterexample :
    ¬ sortedByTimestampThenSourceId (sortEvents [evTieB, evTieA]) ∧
    analyzeSessions [evTieB, evTieA] ≠ analyzeSessions [evTieA, evTieB] := by
  constructor
  · have hsort : sortEvents [evTieB, evTieA] = [evTieB, evTieA] := by decide
    rw [hsort]
    intro hpair
    have h := (List.pairwise_cons.mp hpair).1 evTieA (List.mem_singleton.mpr rfl)
    rcases h with hlt | ⟨-, hle⟩
    · exact absurd hlt (by decide)
    · revert hle
      simp [evTieA, evTieB]
      decide
  · decide

/-- C2 (amended): the aggregation stage sorts by timestamp only — the result
is timestamp-sorted and a permutation of the input, with ties left in
delivery order rather than broken by source id — and sessionization is
order-independent exactly on inputs whose timestamps are pairwise distinct:
any two delivery orders of such a set yield identical matter-keyed session
lists. -/
theorem aggregation_order_amended :
    (∀ l : List SourceEvent,
      (sortEvents l).Sorted tsLE ∧ (sortEvents l).Perm l) ∧
    ∀ l₁ l₂ : List SourceEvent, l₁.Perm l₂ →
      (l₁.map SourceEvent.timestamp).Nodup →
      analyzeSessions l₁ = analyzeSessions l₂ := by
  have hsort : ∀ l : List SourceEvent,
      (sortEvents l).Sorted tsLE ∧ (sortEvents l).Perm l :=
    fun l => ⟨List.sorted_insertionSort tsLE l, List.perm_insertionSort tsLE l⟩
  refine ⟨hsort, fun l₁ l₂ hp hnd => ?_⟩
  have hperm : (sortEvents l₁).Perm (sortEvents l₂) :=
    ((hsort l₁).2.trans hp).trans (hsort l₂).2.symm
  have hnd₁ : ((sortEvents l₁).map SourceEvent.timestamp).Nodup :=
    (((hsort l₁).2.map SourceEvent.timestamp).nodup_iff).mpr hnd
  have heq : sortEvents l₁ = sortEvents l₂ :=
    sorted_perm_eq_of_nodup_ts _ _ hperm (hsort l₁).1 (hsort l₂).1 hnd₁
  unfold analyzeSessions
  rw [heq]

/-- Witness for C2 (amended): two distinct-timestamp events delivered in
either order sessionize identically. -/
theorem aggregation_order_amended_witness :
    analyzeSessions [ev0920, ev0900] = analyzeSessions [ev0900, ev0920] :=
  aggregation_order_amended.2 [ev0920, ev0900] [ev0900, ev0920]
    (List.Perm.swap ev0900 ev0920 []) (by decide)

/-! ## Theorems for claim C7 -/

/-- The `dateMap` lookup is the per-day sum of recorded minutes. -/
theorem buildDateMap_eq_dayTotal (events : List SourceEvent) (d : ℤ) :
    buildDateMap events d = dayTotal events d := by
  suffices h : ∀ (es : List SourceEvent) (dm : ℤ → ℚ),
      (es.foldl
        (fun dm event => fun x =>
          if x = msDay event.timestamp then dm x + event.durationMinutes.getD 0
          else dm x) dm) d = dm d + dayTotal es d by
    have := h events (fun _ => 0)
    simpa [buildDateMap] using this
  intro es
  induction es with
  | nil => intro dm; simp [dayTotal]
  | cons e es ih =>
    intro dm
    rw [List.foldl_cons, ih]
    by_cases hd : d = msDay e.timestamp
    · have hd' : msDay e.timestamp = d := hd.symm
      rw [if_pos hd]
      simp [dayTotal, List.filter_cons, hd']
      ring
    · have hd' : ¬ msDay e.timestamp = d := fun h => hd h.symm
      rw [if_neg hd]
      simp [dayTotal, List.filter_cons, hd']

/-- Membership in the day-stepping loop: a day is reported iff it is visited
(start plus a whole number of days, still at most the inclusive end bound)
and its mapped total is below 120. -/
theorem gapLoop_mem (dm : ℤ → ℚ) (wend : ℤ) :
    ∀ (n : ℕ) (current : ℤ), (wend + 86400000 - current).toNat ≤ n →
      ∀ d, d ∈ gapLoop dm wend current ↔
        ∃ i : ℕ, current + i * 86400000 ≤ wend ∧
          d = msDay (current + i * 86400000) ∧ dm d < 120 := by
  intro n
  induction n with
  | zero =>
    intro current hn d
    have hgt : ¬ current ≤ wend := by omega
    rw [gapLoop, if_neg hgt]
    simp only [List.not_mem_nil, false_iff]
    rintro ⟨i, hle, -, -⟩
    have hpos : (0 : ℤ) ≤ (i : ℤ) * 86400000 := by positivity
    omega
  | succ n ih =>
    intro current hn d
    by_cases hc : current ≤ wend
    · rw [gapLoop, if_pos hc, List.mem_append,
        ih (current + 86400000) (by omega) d]
      constructor
      · rintro (hhead | ⟨i, hle, hd, hdm⟩)
        · by_cases h120 : dm (msDay current) < 120
          · rw [if_pos h120, List.mem_singleton] at hhead
            exact ⟨0, by simpa using hc, by simpa using hhead, hhead ▸ h120⟩
          · rw [if_neg h120] at hhead
            cases hhead
        · refine ⟨i + 1, ?_, ?_, hdm⟩
          · push_cast
            linarith
          · rw [hd]
            congr 1
            push_cast
            ring
      · rintro ⟨i, hle, hd, hdm⟩
        cases i with
        | zero =>
          left
          simp only [Nat.cast_zero, zero_mul, add_zero] at hle hd
          rw [if_pos (hd ▸ hdm), hd, List.mem_singleton]
        | succ i =>
          right
          refine ⟨i, ?_, ?_, hdm⟩
          · push_cast at hle ⊢
            linarith
          · rw [hd]
            congr 1
            push_cast
            ring
    · rw [gapLoop, if_neg hc]
      simp only [List.not_mem_nil, false_iff]
      rintro ⟨i, hle, -, -⟩
      have hpos : (0 : ℤ) ≤ (i : ℤ) * 86400000 := by positivity
      omega

/-- C7 (amended): the gap identifier reports exactly those calendar days
visited by the loop — `day(start + i·86400000)` for every `i ≥ 0` with
`start + i·86400000 ≤ end`, the end bound inclusive — whose summed recorded
minutes fall below 120.  Because the bound is inclusive, a window whose end
lies exactly on a later day (e.g. a half-open `[day1, day4)` window) also
gets that boundary day reported. -/
theorem identifyGaps_days (events : List SourceEvent) (wstart wend d : ℤ) :
    d ∈ identifyGaps events wstart wend ↔
      ∃ i : ℕ, wstart + i * 86400000 ≤ wend ∧
        d = msDay (wstart + i * 86400000) ∧ dayTotal events d < 120 := by
  unfold identifyGaps
  rw [gapLoop_mem (buildDateMap events) wend
    ((wend + 86400000 - wstart).toNat) wstart le_rfl d]
  simp only [buildDateMap_eq_dayTotal]

/-- C7 counterexample: for the half-open three-day window `[0, 3·86400000)`
(days 0, 1, 2) with recorded minutes `[30, 150, 0]`, the code reports
`[0, 2, 3]`: not only the two low days of the window but also day 3, whose
start coincides with the window end and is not a calendar day of the
half-open window — refuting "exactly those calendar days of the window". -/
theorem identifyGaps_counterexample :
    identifyGaps [gapEv1, gapEv2] 0 259200000 = [0, 2, 3] ∧
    identifyGaps [gapEv1, gapEv2] 0 259200000 ≠ [0, 2] ∧
    (259200000 : ℤ) = 3 * 86400000 := by
  have hms0 : msDay 0 = 0 := by decide
  have hms1 : msDay 86400000 = 1 := by decide
  have hms2 : msDay 172800000 = 2 := by decide
  have hms3 : msDay 259200000 = 3 := by decide
  have hdm : ∀ d : ℤ, buildDateMap [gapEv1, gapEv2] d =
      if d = 0 then 30 else if d = 1 then 150 else 0 := by
    intro d
    simp only [buildDateMap, List.foldl_cons, List.foldl_nil, gapEv1, gapEv2,
      hms0, hms1]
    by_cases hd0 : d = 0
    · subst hd0; norm_num
    · by_cases hd1 : d = 1
      · subst hd1; norm_num
      · simp [hd0, hd1]
  have h4 : gapLoop (buildDateMap [gapEv1, gapEv2]) 259200000 345600000 = [] := by
    rw [gapLoop]
    norm_num
  have h3 : gapLoop (buildDateMap [gapEv1, gapEv2]) 259200000 259200000 = [3] := by
    rw [gapLoop, if_pos (by norm_num : (259200000 : ℤ) ≤ 259200000),
      show (259200000 : ℤ) + 86400000 = 345600000 by norm_num, h4, hms3, hdm 3]
    norm_num
  have h2 : gapLoop (buildDateMap [gapEv1, gapEv2]) 259200000 172800000 = [2, 3] := by
    rw [gapLoop, if_pos (by norm_num : (172800000 : ℤ) ≤ 259200000),
      show (172800000 : ℤ) + 86400000 = 259200000 by norm_num, h3, hms2, hdm 2]
    norm_num
  have h1 : gapLoop (buildDateMap [gapEv1, gapEv2]) 259200000 86400000 = [2, 3] := by
    rw [gapLoop, if_pos (by norm_num : (86400000 : ℤ) ≤ 259200000),
      show (86400000 : ℤ) + 86400000 = 172800000 by norm_num, h2, hms1, hdm 1]
    norm_num
  have h0 : gapLoop (buildDateMap [gapEv1, gapEv2]) 259200000 0 = [0, 2, 3] := by
    rw [gapLoop, if_pos (by norm_num : (0 : ℤ) ≤ 259200000),
      show (0 : ℤ) + 86400000 = 86400000 by norm_num, h1, hms0, hdm 0]
    norm_num
  refine ⟨h0, ?_, by norm_num⟩
  rw [show identifyGaps [gapEv1, gapEv2] 0 259200000 =
    gapLoop (buildDateMap [gapEv1, gapEv2]) 259200000 0 from rfl, h0]
  simp
